import Mathlib

/-!
Verification development for the product scraper (`src/scraper.py`).

The development shallowly embeds the four core pieces of the program:
the price normalizer `clean_price`, the selector-driven field extractor
`parse_products_from_html`, the render-fallback decision, and the
pagination loop of `scrape_site`.  HTML parsing and CSS selection are
external capabilities of the program (BeautifulSoup); they are modelled
opaquely: a parsed page (`Soup`) is a function from selector strings to
the list of matched elements, and an element exposes the operations the
program uses on it (`get_text(strip=True)`, `get_text(" ", strip=True)`,
`.get(attr)`, `select_one`).  Python floats are modelled as exact
rationals: every numeric string the normalizer feeds to `float` is a
plain decimal literal, so its value is an exact decimal rational.
-/

/-! ## Character-level helpers (Python `in`, `str.lower`, regex scans) -/

/-- Python `c in s` membership test on a list of characters. -/
def hasChar (c : Char) : List Char → Bool
  | [] => false
  | d :: ds => (d == c) || hasChar c ds

/-- Case-insensitive equality of characters (ASCII case folding, which is
what the characters appearing in `PRICE_SYM_RE` need). -/
def ciEq (a b : Char) : Bool := a.toLower == b.toLower

/-- Case-insensitive "the pattern starts the string" test. -/
def ciStartsWith : List Char → List Char → Bool
  | [], _ => true
  | _ :: _, [] => false
  | p :: ps, c :: cs => ciEq p c && ciStartsWith ps cs

/-- Exact "the pattern starts the string" test. -/
def startsWithChars : List Char → List Char → Bool
  | [], _ => true
  | _ :: _, [] => false
  | p :: ps, c :: cs => (p == c) && startsWithChars ps cs

/-- Python `pat in s` substring test. -/
def hasSub (pat : List Char) : List Char → Bool
  | [] => startsWithChars pat []
  | c :: rest => startsWithChars pat (c :: rest) || hasSub pat rest

/-- Python `str.lower()` (ASCII folding suffices for the URLs compared
against the literal `"page="`). -/
def lowerChars (l : List Char) : List Char := l.map Char.toLower

/-- Python `str.strip()`: drop whitespace from both ends (modelled on
the character list; Lean's built-in `String.trim` is byte-position based
and is avoided so that terms evaluate by kernel reduction). -/
def pyStrip (s : String) : String :=
  String.mk (((s.data.dropWhile Char.isWhitespace).reverse.dropWhile Char.isWhitespace).reverse)

/-! ## `PRICE_SYM_RE = re.compile(r"[$€£]|ARS|AR\$|USD", re.I)`

`PRICE_SYM_RE.search(text)` returns the leftmost match; at a given
position the regex alternatives are tried in order.  The matched text is
returned with its original casing (`sym.group(0)`). -/

/-- One attempt of `PRICE_SYM_RE` at a fixed position: try the character
class `[$€£]`, then `ARS`, then `AR\$`, then `USD`, case-insensitively. -/
def symAt (s : List Char) : Option (List Char) :=
  match s with
  | [] => none
  | c :: _ =>
    if c == '$' || c == '€' || c == '£' then some [c]
    else if ciStartsWith ['a', 'r', 's'] s then some (s.take 3)
    else if ciStartsWith ['a', 'r', '$'] s then some (s.take 3)
    else if ciStartsWith ['u', 's', 'd'] s then some (s.take 3)
    else none

/-- `PRICE_SYM_RE.search`: scan positions left to right. -/
def symSearch : List Char → Option (List Char)
  | [] => none
  | c :: rest =>
    match symAt (c :: rest) with
    | some m => some m
    | none => symSearch rest

/-- The currency token reported by `clean_price`: first match of
`PRICE_SYM_RE` in the text, with original casing. -/
def priceSymSearch (s : String) : Option String :=
  (symSearch s.data).map (fun l => String.mk l)

/-! ## `NUM_RE = re.compile(r"(\d[\d\.\,]*)")`

`NUM_RE.search` finds the first digit and greedily extends over digits,
dots and commas.  (`\d` is modelled as the ASCII digits; the prices the
program handles are written with ASCII digits.) -/

/-- A character the numeric run may continue with: digit, `.` or `,`. -/
def isNumCont (c : Char) : Bool := c.isDigit || c == '.' || c == ','

/-- `NUM_RE.search`: leftmost numeric run, greedy. -/
def numFrom : List Char → Option (List Char)
  | [] => none
  | c :: rest =>
    if c.isDigit then some (c :: rest.takeWhile isNumCont) else numFrom rest

/-- `price_text.replace(" ", " ")`: non-breaking spaces become
ordinary spaces before the numeric search. -/
def nbspToSpace (l : List Char) : List Char :=
  l.map (fun c => if c == Char.ofNat 160 then ' ' else c)

/-! ## Python `float` on the canonical strings

After the separator heuristics, the string handed to `float` consists of
ASCII digits and dots only.  On such strings `float` accepts exactly one
optional dot with at least one digit somewhere, and the value is the
exact decimal it denotes (modelled as a rational, see the file header). -/

/-- Value of a list of ASCII digits read in base 10. -/
def digitsToNat (l : List Char) : Nat :=
  l.foldl (fun n c => 10 * n + (c.toNat - Char.toNat '0')) 0

/-- Split a character list on `.` (used to model `float`'s grammar). -/
def splitDot : List Char → List (List Char)
  | [] => [[]]
  | c :: rest =>
    let ps := splitDot rest
    if c == '.' then [] :: ps
    else (c :: ps.headI) :: ps.tail

/-- Python `float(raw)` restricted to the digits-and-dots strings
`clean_price` produces: `none` models `ValueError`.  The decimal
`ip.fp` denotes the rational `(ip * 10^|fp| + fp) / 10^|fp|`. -/
def parseFloat (s : List Char) : Option ℚ :=
  if s.all (fun c => c.isDigit || c == '.') then
    match splitDot s with
    | [p] => if p.isEmpty then none else some (mkRat (digitsToNat p) 1)
    | [ip, fp] =>
      if ip.isEmpty && fp.isEmpty then none
      else some (mkRat (digitsToNat ip * 10 ^ fp.length + digitsToNat fp) (10 ^ fp.length))
    | _ => none
  else none

/-! ## `clean_price` (src/scraper.py lines 79-117) -/

/-- `clean_price(price_text)`.  A Python `None`/empty argument is falsy;
both are modelled by the empty string (the `if not price_text` guard).
The value component is the exact rational denoted by the decimal string
handed to `float`. -/
def clean_price (price_text : String) : Option String × Option ℚ :=
  if price_text = "" then (none, none)
  else
    let currency := priceSymSearch price_text
    match numFrom (nbspToSpace price_text.data) with
    | none => (currency, none)
    | some raw =>
      let canon :=
        if hasChar ',' raw && hasChar '.' raw then
          -- thousands '.' and decimal ','
          ((raw.filter (fun c => c != '.')).map (fun c => if c == ',' then '.' else c))
        else if hasChar ',' raw && !(hasChar '.' raw) then
          -- likely decimal comma
          ((raw.filter (fun c => c != '.')).map (fun c => if c == ',' then '.' else c))
        else
          -- only dots: treat as thousands
          raw.filter (fun c => c != '.')
      (currency, parseFloat canon)

/-! ## Opaque DOM model (BeautifulSoup as an external capability)

`BeautifulSoup(html, "html.parser")` and CSS selection are external to
the program.  A parsed page (`Soup`) answers `soup.select(css)` with a
list of elements and `soup.select_one(css)` with an optional element; an
element inside an item answers the text/attribute queries the extractor
performs.  A fetched page (`Html`) is the parsed page plus the one fact
about the raw markup the program inspects textually: whether it contains
the character `$`. -/

/-- An element a field selector resolves to, exposing exactly the
operations `parse_products_from_html` performs on it. -/
structure FieldElem where
  /-- `elem.get_text(strip=True)` -/
  textStrip : String
  /-- `elem.get_text(" ", strip=True)` -/
  textSpace : String
  /-- attribute mapping backing `elem.get(attr)` -/
  attrs : List (String × String)
deriving Repr

/-- `elem.get(attr)`: `None` when the attribute is absent. -/
def FieldElem.getAttr (e : FieldElem) (a : String) : Option String :=
  (e.attrs.find? (fun p => p.1 == a)).map (fun p => p.2)

/-- An item-container element: `item.select_one(css)` for the field
selectors applied within it. -/
structure ItemElem where
  selOne : String → Option FieldElem

/-- A parsed page: `soup.select(css)` and `soup.select_one(css)`. -/
structure Soup where
  select : String → List ItemElem
  selOne : String → Option FieldElem

/-- A fetched page: parsed markup plus whether the raw markup contains
the character `$` (the only textual probe the program makes). -/
structure Html where
  soup : Soup
  containsDollar : Bool

/-! ## `SiteConfig` (src/scraper.py lines 50-70) -/

/-- The per-site configuration dataclass.  `max_pages` is an optional
Python `int`. -/
structure SiteConfig where
  start_urls : List String
  item_selector : String
  name_selector : String
  price_selector : String
  brand_selector : Option String := none
  link_selector : Option String := none
  next_page_selector : Option String := none
  name_attr : Option String := none
  price_attr : Option String := none
  extra_fields : List (String × String) := []
  max_pages : Option Int := none

/-- Python truthiness of an `Optional[str]`: `None` and `""` are falsy.
Used wherever the source tests an optional selector/attribute with
`if site.x:`. -/
def optTruthy : Option String → Option String
  | some s => if s = "" then none else some s
  | none => none

/-! ## The field extractor `parse_products_from_html`
(src/scraper.py lines 190-268)

A produced row is a Python dict with string keys and string values (the
numeric `price_value` entry in the source is commented out, so every
value actually stored is a string).  Dicts are modelled as ordered
association lists with Python's insert-or-overwrite semantics. -/

/-- A Python dict with string keys and values, in insertion order. -/
abbrev PyDict := List (String × String)

/-- Python dict insertion: overwrite in place when the key exists,
append otherwise. -/
def pyDictInsert (d : PyDict) (kv : String × String) : PyDict :=
  if d.any (fun p => p.1 == kv.1) then
    d.map (fun p => if p.1 == kv.1 then (p.1, kv.2) else p)
  else d ++ [kv]

/-- Build a dict from key-value pairs in order (the dict literal with
`**extras` splat in the source). -/
def pyDictOfList (l : List (String × String)) : PyDict :=
  l.foldl pyDictInsert []

/-- `d.get(k)`-style lookup on a modelled dict. -/
def dictGet (k : String) (d : PyDict) : Option String :=
  (d.find? (fun p => p.1 == k)).map (fun p => p.2)

/-- The loop body of `parse_products_from_html` for one item element:
`none` models the `continue` taken when the price selector matches
nothing; otherwise the produced row.  The source also computes a
`url_val` from `link_selector` and the numeric `price_val`, but both
dict entries are commented out, so neither value reaches the row. -/
def itemRecord (site_key page_url : String) (site : SiteConfig) (item : ItemElem) :
    Option PyDict :=
  let brand_text :=
    match optTruthy site.brand_selector with
    | some bs =>
      match item.selOne bs with
      | some be => be.textStrip
      | none => ""
    | none => ""
  -- the source repeats the identical brand block a second time ("fallback
  -- if brand not found"); it recomputes the same value, so it is a no-op
  let name_text :=
    match item.selOne site.name_selector with
    | some ne =>
      match optTruthy site.name_attr with
      | some a => pyStrip ((ne.getAttr a).getD "")
      | none => ne.textStrip
    | none => ""
  let full_name := pyStrip (brand_text ++ " " ++ name_text)
  match item.selOne site.price_selector with
  | none => none
  | some pe =>
    let price_text :=
      match optTruthy site.price_attr with
      | some a => pyStrip ((pe.getAttr a).getD "")
      | none => pe.textSpace
    let cp := clean_price price_text
    let extras := site.extra_fields.map (fun kc =>
      if kc.2 = "" then (kc.1, "")
      else
        match item.selOne kc.2 with
        | some ex => (kc.1, ex.textStrip)
        | none => (kc.1, ""))
    some (pyDictOfList
      ([("site_key", site_key), ("source_url", page_url),
        ("brand", brand_text),
        ("name", if full_name = "" then name_text else full_name),
        ("price_text", price_text),
        ("currency", (cp.1).getD "")] ++ extras))

/-- `ProductScraper.parse_products_from_html(site_key, html, page_url,
site)`: apply the item selector and run the loop body on each item,
skipping items whose price selector matches nothing. -/
def parse_products_from_html (site_key : String) (soup : Soup) (page_url : String)
    (site : SiteConfig) : List PyDict :=
  (soup.select site.item_selector).filterMap (itemRecord site_key page_url site)

/-! ## The pagination loop of `ProductScraper.scrape_site`
(src/scraper.py lines 270-357)

The loop is modelled per start URL, parameterized by the external
capabilities: the static fetcher (`self.fetch`, returning `None` for a
falsy result), the dynamic renderer (`fetch_with_playwright`, whose
falsy result models both a missing Playwright installation and an empty
rendering), and `urllib.parse.urljoin` (only exercised by the
"next page" fallback).  `polite_sleep`, logging, the first-page debug
probes and the `--save-html` file write have no effect on the returned
rows and are omitted.  The result carries the accumulated rows together
with the list of URLs passed to the static fetcher, in call order, so
that fetch-count properties can be stated. -/

/-- The CLI arguments the loop consults (`args.max_pages` and
`args.save_html`; the delay and robots flags do not affect the rows). -/
structure Args where
  max_pages : Option Int := none
  save_html : Bool := false

/-- Python `a or b` for an optional integer `a` (both `None` and `0` are
falsy and fall through to `b`). -/
def pyOrInt (a : Option Int) (b : Int) : Int :=
  match a with
  | some n => if n = 0 then b else n
  | none => b

/-- `max_pages = self.args.max_pages or site.max_pages or 1` (line 275). -/
def effMaxPages (A : Args) (site : SiteConfig) : Int :=
  pyOrInt A.max_pages (pyOrInt site.max_pages 1)

/-- Page-URL construction (lines 279-283): keep the start URL unchanged
when it already mentions `page=` (case-insensitively), otherwise append
`page=N` with `?` or `&` depending on an existing query string. -/
def pageURL (base_url : String) (page_idx : Nat) : String :=
  if hasSub ['p', 'a', 'g', 'e', '='] (lowerChars base_url.data) then base_url
  else
    let sep := if hasChar '?' base_url.data then "&" else "?"
    base_url ++ sep ++ "page=" ++ toString page_idx

/-- The default-mode render probe (lines 297-302): item cards exist but
the price selector finds zero matches in the static markup. -/
def needJsStatic (site : SiteConfig) (soup : Soup) : Bool :=
  let cards_cnt := (soup.select site.item_selector).length
  let prices_cnt :=
    if site.price_selector = "" then 0 else (soup.select site.price_selector).length
  decide (cards_cnt > 0) && decide (prices_cnt = 0)

/-- The render decision (lines 292-302): in `--save-html` debug mode the
cheap textual probe (no `$` in the raw markup), otherwise the
structural probe. -/
def needJsFor (A : Args) (site : SiteConfig) (h : Html) : Bool :=
  if A.save_html then !h.containsDollar else needJsStatic site h.soup

/-- Lines 304-308: when a render is signalled, fetch with Playwright and
keep the rendered markup only if it is truthy; a falsy render result
(Playwright missing, or nothing returned) keeps the static markup. -/
def staticOrRendered (A : Args) (site : SiteConfig) (render : String → Option Html)
    (url : String) (h0 : Html) : Html :=
  if needJsFor A site h0 then (render url).getD h0 else h0

/-- What one loop iteration at page index `idx` produces before the
"next page" fallback: `none` when the static fetch is falsy, otherwise
the rows extracted from the (possibly re-rendered) page. -/
def pageRecords (A : Args) (site : SiteConfig) (fetch : String → Option Html)
    (render : String → Option Html) (site_key base_url : String) (idx : Nat) :
    Option (List PyDict) :=
  (fetch (pageURL base_url idx)).map (fun h0 =>
    parse_products_from_html site_key
      (staticOrRendered A site render (pageURL base_url idx) h0).soup
      (pageURL base_url idx) site)

/-- The `for page_idx in range(1, max_pages + 1)` loop of `scrape_site`
for one start URL: `fuel` is the number of page indices left, `page_idx`
the next index.  Returns the accumulated rows and the fetched URLs. -/
def pageLoop (A : Args) (site : SiteConfig) (fetch : String → Option Html)
    (render : String → Option Html) (ujoin : String → String → String)
    (site_key base_url : String) : Nat → Nat → List PyDict × List String
  | 0, _ => ([], [])
  | fuel + 1, page_idx =>
    let paged_url := pageURL base_url page_idx
    match fetch paged_url with
    | none => ([], [paged_url])
    | some h0 =>
      let html := staticOrRendered A site render paged_url h0
      let pr0 := parse_products_from_html site_key html.soup paged_url site
      -- first-page "next page" fallback (lines 335-347)
      let fb :=
        if pr0.isEmpty && page_idx == 1 then
          match optTruthy site.next_page_selector with
          | none => (pr0, ([] : List String))
          | some nps =>
            match html.soup.selOne nps with
            | none => (pr0, [])
            | some link =>
              match link.getAttr "href" with
              | none => (pr0, [])
              | some href =>
                if href = "" then (pr0, [])
                else
                  let next_url := ujoin paged_url href
                  match fetch next_url with
                  | none => (pr0, [next_url])
                  | some h2 =>
                    (parse_products_from_html site_key h2.soup next_url site, [next_url])
        else (pr0, [])
      if fb.1.isEmpty then (fb.1, paged_url :: fb.2)
      else
        let rest := pageLoop A site fetch render ujoin site_key base_url fuel (page_idx + 1)
        (fb.1 ++ rest.1, (paged_url :: fb.2) ++ rest.2)

/-- The pagination of `scrape_site` for one start URL: at most
`max_pages` iterations starting at page index 1. -/
def scrape_start_url (A : Args) (site : SiteConfig) (fetch : String → Option Html)
    (render : String → Option Html) (ujoin : String → String → String)
    (site_key base_url : String) : List PyDict × List String :=
  pageLoop A site fetch render ujoin site_key base_url (effMaxPages A site).toNat 1

/-- `ProductScraper.scrape_site`: run the pagination for every start URL
in order, concatenating rows (and fetch calls). -/
def scrape_site (A : Args) (site : SiteConfig) (fetch : String → Option Html)
    (render : String → Option Html) (ujoin : String → String → String)
    (site_key : String) : List PyDict × List String :=
  site.start_urls.foldl
    (fun acc base_url =>
      let r := scrape_start_url A site fetch render ujoin site_key base_url
      (acc.1 ++ r.1, acc.2 ++ r.2))
    ([], [])

/-- The number of pages the loop visits: mirror of the loop's stopping
rule, separated from its mechanics.  Starting at `page_idx = idx` with
`fuel` indices available, the loop visits one page and stops there when
that page's fetch is falsy or yields zero rows, and continues otherwise.
(Defined for stating the pagination theorem; meaningful for sites
without a truthy `next_page_selector`, where the fallback is dead.) -/
def stopLen (A : Args) (site : SiteConfig) (fetch : String → Option Html)
    (render : String → Option Html) (site_key base_url : String) :
    Nat → Nat → Nat
  | 0, _ => 0
  | fuel + 1, idx =>
    match pageRecords A site fetch render site_key base_url idx with
    | none => 1
    | some rs =>
      if rs.isEmpty then 1
      else stopLen A site fetch render site_key base_url fuel (idx + 1) + 1

/-! ## Concrete fixtures

Small concrete pages and configurations used by the counterexamples and
witnesses below.  Selector strings are arbitrary identifiers: the DOM
model answers them by name. -/

/-- A minimal site: items under `it`, names under `nm`, prices under
`pr`, everything optional left at its default. -/
def simpleSite : SiteConfig :=
  { start_urls := ["http://s"], item_selector := "it",
    name_selector := "nm", price_selector := "pr" }

/-- An element with given text and no attributes. -/
def textElem (t : String) : FieldElem := ⟨t, t, []⟩

/-- An item with a name element and a price element. -/
def namedPricedItem (nm pr : String) : ItemElem :=
  ⟨fun sel => if sel == "nm" then some (textElem nm)
    else if sel == "pr" then some (textElem pr) else none⟩

/-- An item whose name selector matches nothing but whose price selector
matches (the C4 scenario). -/
def namelessItem : ItemElem :=
  ⟨fun sel => if sel == "pr" then some (textElem "$5") else none⟩

/-- A page whose every selector answers with the single given item. -/
def singleItemSoup (it : ItemElem) : Soup := ⟨fun _ => [it], fun _ => none⟩

/-- The C3 page: one item named `Widget` priced `124,99`. -/
def c3Soup : Soup := singleItemSoup (namedPricedItem "Widget" "124,99")

/-- The one row the extractor produces from the C3 page. -/
def c3Record : PyDict :=
  [("site_key", "k"), ("source_url", "u"), ("brand", ""), ("name", "Widget"),
   ("price_text", "124,99"), ("currency", "")]

/-- The C4 page: one item with a price but no name element. -/
def c4Soup : Soup := singleItemSoup namelessItem

/-- The one row the extractor produces from the C4 page (an item with a
price but no name element). -/
def c4Record : PyDict :=
  [("site_key", "k"), ("source_url", "u"), ("brand", ""), ("name", ""),
   ("price_text", "$5"), ("currency", "$")]

/-- First page of the C5 two-page scenario: three items, and the price
selector also matches at page level (so no render is signalled). -/
def c5Soup1 : Soup :=
  ⟨fun sel =>
    if sel == "it" then
      [namedPricedItem "A" "$ 10", namedPricedItem "B" "$ 11", namedPricedItem "C" "$ 12"]
    else if sel == "pr" then [namelessItem]
    else [],
   fun _ => none⟩

/-- An empty page: no selector matches anything. -/
def emptySoup : Soup := ⟨fun _ => [], fun _ => none⟩

/-- The C5 fetcher: page 1 has three items, every other URL an empty
page; every fetch succeeds. -/
def c5Fetch (u : String) : Option Html :=
  some (if u == "http://s?page=1" then ⟨c5Soup1, true⟩ else ⟨emptySoup, true⟩)

/-- The C5 CLI arguments: `--max-pages 5`, no debug save. -/
def c5Args : Args := { max_pages := some 5 }

/-- A renderer that always fails (Playwright absent). -/
def noRender : String → Option Html := fun _ => none

/-- A `urljoin` stand-in for scenarios whose fallback is dead. -/
def joinNop : String → String → String := fun _ h => h

/-- The C6/C9 static page: item cards present, zero price matches. -/
def jsOnlySoup : Soup :=
  ⟨fun sel => if sel == "it" then [namelessItem, namelessItem] else [], fun _ => none⟩

/-- The C6/C9 fetched page: raw markup without a `$`. -/
def jsOnlyHtml : Html := ⟨jsOnlySoup, false⟩

/-- A fetcher that always returns the C6/C9 static page. -/
def jsOnlyFetch : String → Option Html := fun _ => some jsOnlyHtml

/-! ## Helper lemmas -/

theorem hasChar_append (c : Char) (l r : List Char) :
    hasChar c (l ++ r) = (hasChar c l || hasChar c r) := by
  induction l with
  | nil => rfl
  | cons d ds ih => simp [hasChar, ih, Bool.or_assoc]

theorem hasChar_cons_self (c : Char) (r : List Char) : hasChar c (c :: r) = true := by
  simp [hasChar]

theorem hasChar_eq_false (c : Char) (l : List Char)
    (h : ∀ d ∈ l, (d == c) = false) : hasChar c l = false := by
  induction l with
  | nil => rfl
  | cons d ds ih =>
    simp only [hasChar, Bool.or_eq_false_iff]
    exact ⟨h d (List.mem_cons_self d ds), ih fun x hx => h x (List.mem_cons_of_mem d hx)⟩

theorem digit_beq_dot {c : Char} (h : c.isDigit = true) : (c == '.') = false := by
  cases hb : c == '.' with
  | false => rfl
  | true => exact absurd (eq_of_beq hb ▸ h) (by decide)

theorem digit_beq_comma {c : Char} (h : c.isDigit = true) : (c == ',') = false := by
  cases hb : c == ',' with
  | false => rfl
  | true => exact absurd (eq_of_beq hb ▸ h) (by decide)

theorem digit_bne_dot {c : Char} (h : c.isDigit = true) : (c != '.') = true := by
  simp [bne, digit_beq_dot h]

theorem numFrom_head (l raw : List Char) (h : numFrom l = some raw) :
    ∃ d ds, raw = d :: ds ∧ d.isDigit = true := by
  induction l with
  | nil => exact Option.noConfusion h
  | cons c cs ih =>
    by_cases hc : c.isDigit = true
    · rw [numFrom, if_pos hc] at h
      exact ⟨c, cs.takeWhile isNumCont, (Option.some.injEq _ _ ▸ h).symm, hc⟩
    · rw [numFrom, if_neg hc] at h
      exact ih h

theorem numFrom_eq_none (l : List Char) (h : ∀ c ∈ l, c.isDigit = false) :
    numFrom l = none := by
  induction l with
  | nil => rfl
  | cons c cs ih =>
    rw [numFrom, if_neg (by simp [h c (List.mem_cons_self c cs)])]
    exact ih fun x hx => h x (List.mem_cons_of_mem c hx)

theorem splitDot_no_dot (l : List Char) (h : ∀ c ∈ l, (c == '.') = false) :
    splitDot l = [l] := by
  induction l with
  | nil => rfl
  | cons c cs ih =>
    rw [splitDot]
    simp only [h c (List.mem_cons_self c cs), if_false,
      ih fun x hx => h x (List.mem_cons_of_mem c hx)]
    rfl

theorem splitDot_append_dot (l r : List Char) (h : ∀ c ∈ l, (c == '.') = false) :
    splitDot (l ++ '.' :: r) = l :: splitDot r := by
  induction l with
  | nil => simp [splitDot]
  | cons c cs ih =>
    rw [List.cons_append, splitDot]
    simp only [h c (List.mem_cons_self c cs), if_false,
      ih fun x hx => h x (List.mem_cons_of_mem c hx)]
    rfl

theorem parseFloat_pair (a b : List Char)
    (ha : ∀ c ∈ a, c.isDigit = true) (hb : ∀ c ∈ b, c.isDigit = true)
    (hane : a ≠ []) :
    parseFloat (a ++ '.' :: b) =
      some (mkRat (digitsToNat a * 10 ^ b.length + digitsToNat b) (10 ^ b.length)) := by
  have hall : ((a ++ '.' :: b).all fun c => c.isDigit || c == '.') = true := by
    simp only [List.all_append, List.all_cons, Bool.and_eq_true, List.all_eq_true]
    refine ⟨fun x hx => by simp [ha x hx], by simp, fun x hx => by simp [hb x hx]⟩
  rw [parseFloat, if_pos hall,
    splitDot_append_dot a b (fun c hc => digit_beq_dot (ha c hc)),
    splitDot_no_dot b (fun c hc => digit_beq_dot (hb c hc))]
  have hae : a.isEmpty = false := by
    cases a with
    | nil => exact absurd rfl hane
    | cons x xs => rfl
  show (if (a.isEmpty && b.isEmpty) = true then none
        else some (mkRat (digitsToNat a * 10 ^ b.length + digitsToNat b) (10 ^ b.length))) =
      some (mkRat (digitsToNat a * 10 ^ b.length + digitsToNat b) (10 ^ b.length))
  rw [hae]
  rfl

theorem parseFloat_two_dots (a b c : List Char)
    (ha : ∀ x ∈ a, (x == '.') = false) (hb : ∀ x ∈ b, (x == '.') = false)
    (hc : ∀ x ∈ c, (x == '.') = false) :
    parseFloat (a ++ '.' :: (b ++ '.' :: c)) = none := by
  rw [parseFloat]
  by_cases hall : ((a ++ '.' :: (b ++ '.' :: c)).all fun x => x.isDigit || x == '.') = true
  · rw [if_pos hall, splitDot_append_dot a (b ++ '.' :: c) ha,
      splitDot_append_dot b c hb, splitDot_no_dot c hc]
  · rw [if_neg hall]

theorem map_comma_to_dot_id (l : List Char) (h : ∀ c ∈ l, (c == ',') = false) :
    l.map (fun c => if c == ',' then '.' else c) = l := by
  induction l with
  | nil => rfl
  | cons c cs ih =>
    simp only [List.map_cons, h c (List.mem_cons_self c cs),
      ih fun x hx => h x (List.mem_cons_of_mem c hx)]
    rfl

theorem filter_dots_of_digits (l : List Char) (h : ∀ c ∈ l, c.isDigit = true) :
    l.filter (fun c => c != '.') = l := by
  apply List.filter_eq_self.mpr
  exact fun a ha => digit_bne_dot (h a ha)

theorem mem_filter_dots_digit (l : List Char)
    (h : ∀ c ∈ l, (c.isDigit || c == '.') = true) :
    ∀ c ∈ l.filter (fun c => c != '.'), c.isDigit = true := by
  intro c hc
  have hm := List.mem_filter.mp hc
  have hcd := h c hm.1
  rcases Bool.or_eq_true_iff.mp hcd with hd | hdot
  · exact hd
  · exact absurd hdot (by simpa [bne] using hm.2)

theorem string_ne_empty_of_numFrom (s : String) (raw : List Char)
    (hraw : numFrom (nbspToSpace s.data) = some raw) : s ≠ "" := by
  intro he
  rw [he] at hraw
  have h0 : numFrom (nbspToSpace ("" : String).data) = none := rfl
  rw [h0] at hraw
  exact Option.noConfusion hraw

theorem clean_price_eq (s : String) (raw : List Char)
    (hraw : numFrom (nbspToSpace s.data) = some raw) :
    clean_price s =
      (priceSymSearch s,
        parseFloat (
          if hasChar ',' raw && hasChar '.' raw then
            (raw.filter (fun c => c != '.')).map (fun c => if c == ',' then '.' else c)
          else if hasChar ',' raw && !(hasChar '.' raw) then
            (raw.filter (fun c => c != '.')).map (fun c => if c == ',' then '.' else c)
          else raw.filter (fun c => c != '.'))) := by
  rw [clean_price, if_neg (string_ne_empty_of_numFrom s raw hraw), hraw]

theorem digit_or_dot_beq_comma {c : Char} (h : (c.isDigit || c == '.') = true) :
    (c == ',') = false := by
  rcases Bool.or_eq_true_iff.mp h with hd | hdot
  · exact digit_beq_comma hd
  · rw [eq_of_beq hdot]; rfl

theorem filter_dots_ne_nil_of_head (a b : List Char) (d : Char) (ds : List Char)
    (heq : a ++ ',' :: b = d :: ds) (hd : d.isDigit = true) :
    a.filter (fun c => c != '.') ≠ [] := by
  cases a with
  | nil =>
    rw [List.nil_append] at heq
    injection heq with h1 h2
    exact absurd (h1 ▸ hd) (by decide)
  | cons a0 a2 =>
    rw [List.cons_append] at heq
    injection heq with h1 h2
    simp [List.filter_cons, digit_bne_dot (h1 ▸ hd)]

theorem hasChar_dot_false (l : List Char) (h : ∀ c ∈ l, (c == '.') = false) :
    hasChar '.' l = false :=
  hasChar_eq_false '.' l h

theorem numFrom_nbsp_none (s : String)
    (hnd : ∀ c ∈ s.data, c.isDigit = false) :
    numFrom (nbspToSpace s.data) = none := by
  apply numFrom_eq_none
  intro c hc
  obtain ⟨d, hd, hdc⟩ := List.mem_map.mp hc
  by_cases h160 : (d == Char.ofNat 160) = true
  · rw [← hdc]; simp [h160]
  · rw [← hdc]; simp [h160]; exact hnd d hd

theorem itemRecord_isSome_eq (site_key page_url : String) (site : SiteConfig)
    (item : ItemElem) :
    (itemRecord site_key page_url site item).isSome =
      (item.selOne site.price_selector).isSome := by
  cases hpe : item.selOne site.price_selector <;> simp only [itemRecord, hpe] <;> rfl

theorem range'_succ_eq (s n : Nat) : List.range' s (n + 1) = s :: List.range' (s + 1) n := rfl

theorem stopLen_le (A : Args) (site : SiteConfig) (fetch render : String → Option Html)
    (site_key base_url : String) :
    ∀ fuel idx, stopLen A site fetch render site_key base_url fuel idx ≤ fuel := by
  intro fuel
  induction fuel with
  | zero => intro idx; exact Nat.le_refl 0
  | succ n ih =>
    intro idx
    rw [stopLen]
    cases pageRecords A site fetch render site_key base_url idx with
    | none => exact Nat.succ_le_succ (Nat.zero_le n)
    | some rs =>
      show (if rs.isEmpty = true then 1
            else stopLen A site fetch render site_key base_url n (idx + 1) + 1) ≤ n + 1
      by_cases hemp : rs.isEmpty = true
      · rw [if_pos hemp]; exact Nat.succ_le_succ (Nat.zero_le n)
      · rw [if_neg hemp]; exact Nat.succ_le_succ (ih (idx + 1))

/-- For a site whose `next_page_selector` is falsy (the parameter-based
case), the pagination loop is exactly: visit pages `idx, idx+1, ...`
until the first page whose fetch is falsy or whose extraction is empty
(or until the fuel runs out), fetching each visited page once and
concatenating the extracted rows in page order. -/
theorem pageLoop_no_next (A : Args) (site : SiteConfig) (fetch render : String → Option Html)
    (ujoin : String → String → String) (site_key base_url : String)
    (hnp : optTruthy site.next_page_selector = none) :
    ∀ fuel idx,
      pageLoop A site fetch render ujoin site_key base_url fuel idx =
        (((List.range' idx (stopLen A site fetch render site_key base_url fuel idx)).map
            (fun i => (pageRecords A site fetch render site_key base_url i).getD [])).flatten,
         (List.range' idx (stopLen A site fetch render site_key base_url fuel idx)).map
           (pageURL base_url)) := by
  intro fuel
  induction fuel with
  | zero => intro idx; rfl
  | succ n ih =>
    intro idx
    simp only [pageLoop, stopLen, pageRecords]
    cases hf : fetch (pageURL base_url idx) with
    | none => simp [List.range', hf]
    | some h0 =>
      rw [hnp]
      cases hemp : (parse_products_from_html site_key
          (staticOrRendered A site render (pageURL base_url idx) h0).soup
          (pageURL base_url idx) site).isEmpty with
      | true => simp [hemp, hf, pageRecords, List.range']
      | false => simp [hemp, hf, pageRecords, ih, range'_succ_eq]

/-! ## The claims -/

/-- Claim C1: for price strings whose numeric run contains both `.` and
`,`, the spec says the later separator is decimal.  The code behaves
differently: `.` is always stripped as thousands and `,` is always the
decimal separator, regardless of order.  This theorem proves the
amended behavior: for a run of shape `a,b` (with `a`, `b` made of
digits and dots, and at least one dot present), the value is the digits
of `a` (dots stripped) as integer part and the digits of `b` (dots
stripped) as fractional part. -/
theorem C1_comma_decimal_when_both (s : String) (a b : List Char)
    (hraw : numFrom (nbspToSpace s.data) = some (a ++ ',' :: b))
    (ha : ∀ c ∈ a, (c.isDigit || c == '.') = true)
    (hb : ∀ c ∈ b, (c.isDigit || c == '.') = true)
    (hdot : hasChar '.' (a ++ ',' :: b) = true) :
    (clean_price s).2 =
      some (mkRat
        (digitsToNat (a.filter (fun c => c != '.')) * 10 ^ (b.filter (fun c => c != '.')).length
          + digitsToNat (b.filter (fun c => c != '.')))
        (10 ^ (b.filter (fun c => c != '.')).length)) := by
  have hcomma : hasChar ',' (a ++ ',' :: b) = true := by
    rw [hasChar_append, hasChar_cons_self]; simp
  obtain ⟨d, ds, heq, hd⟩ := numFrom_head _ _ hraw
  have hane := filter_dots_ne_nil_of_head a b d ds heq hd
  have hfa : (a ++ ',' :: b).filter (fun c => c != '.') =
      a.filter (fun c => c != '.') ++ ',' :: b.filter (fun c => c != '.') := by
    rw [List.filter_append, List.filter_cons]
    rfl
  have hmap : (a.filter (fun c => c != '.') ++ ',' :: b.filter (fun c => c != '.')).map
      (fun c => if c == ',' then '.' else c) =
      a.filter (fun c => c != '.') ++ '.' :: b.filter (fun c => c != '.') := by
    rw [List.map_append, List.map_cons,
      map_comma_to_dot_id _ (fun c hc => digit_or_dot_beq_comma (ha c (List.mem_filter.mp hc).1)),
      map_comma_to_dot_id _ (fun c hc => digit_or_dot_beq_comma (hb c (List.mem_filter.mp hc).1))]
    rfl
  rw [clean_price_eq s _ hraw]
  dsimp only
  rw [if_pos (by rw [hcomma, hdot]; rfl), hfa, hmap,
    parseFloat_pair _ _ (mem_filter_dots_digit a ha) (mem_filter_dots_digit b hb) hane]

/-- Claim C1, witness: `"35.600,50"` normalizes to 35600.50. -/
theorem C1_comma_decimal_when_both_witness :
    (clean_price "35.600,50").2 = some (mkRat 3560050 100) := by
  have h := C1_comma_decimal_when_both "35.600,50"
    ['3', '5', '.', '6', '0', '0'] ['5', '0'] (by decide) (by decide) (by decide) (by decide)
  rw [h]; decide

/-- Claim C1, counterexample to the claim as stated: on `"1,234.56"` the
`.` appears last, so the claim demands the value 1234.56; the code
strips the dot and treats the comma as decimal, producing 1.23456. -/
theorem C1_counterexample :
    (clean_price "1,234.56").2 = some (mkRat 123456 100000)
    ∧ (clean_price "1,234.56").2 ≠ some (mkRat 123456 100) := by decide

/-- Claim C2: for price strings whose numeric run is made of digits and
commas only, the spec says a single comma is decimal (true) but several
commas are thousands separators to be stripped (false).  The code
treats every comma as a decimal point: a run `a,b` of digits yields the
decimal `a.b`, and a run `a,b,c` of digits yields an unparsable string
and the value `None`. -/
theorem C2_comma_always_decimal :
    (∀ (s : String) (a b : List Char),
        numFrom (nbspToSpace s.data) = some (a ++ ',' :: b) →
        (∀ c ∈ a, c.isDigit = true) → (∀ c ∈ b, c.isDigit = true) →
        (clean_price s).2 =
          some (mkRat (digitsToNat a * 10 ^ b.length + digitsToNat b) (10 ^ b.length)))
    ∧ (∀ (s : String) (a b c : List Char),
        numFrom (nbspToSpace s.data) = some (a ++ ',' :: (b ++ ',' :: c)) →
        (∀ x ∈ a, x.isDigit = true) → (∀ x ∈ b, x.isDigit = true) →
        (∀ x ∈ c, x.isDigit = true) →
        (clean_price s).2 = none) := by
  constructor
  · intro s a b hraw ha hb
    have hnodot : ∀ c ∈ a ++ ',' :: b, (c == '.') = false := by
      intro c hc
      rcases List.mem_append.mp hc with hca | hcb
      · exact digit_beq_dot (ha c hca)
      · rcases List.mem_cons.mp hcb with hcc | hcb2
        · rw [hcc]; rfl
        · exact digit_beq_dot (hb c hcb2)
    have hcomma : hasChar ',' (a ++ ',' :: b) = true := by
      rw [hasChar_append, hasChar_cons_self]; simp
    have hdot' : hasChar '.' (a ++ ',' :: b) = false := hasChar_dot_false _ hnodot
    obtain ⟨d, ds, heq, hd⟩ := numFrom_head _ _ hraw
    have hane : a ≠ [] := by
      intro hnil
      apply filter_dots_ne_nil_of_head a b d ds heq hd
      rw [hnil]; rfl
    have hfa : (a ++ ',' :: b).filter (fun c => c != '.') = a ++ ',' :: b :=
      List.filter_eq_self.mpr fun c hc => by simp [bne, hnodot c hc]
    have hmap : (a ++ ',' :: b).map (fun c => if c == ',' then '.' else c) =
        a ++ '.' :: b := by
      rw [List.map_append, List.map_cons,
        map_comma_to_dot_id a (fun c hc => digit_beq_comma (ha c hc)),
        map_comma_to_dot_id b (fun c hc => digit_beq_comma (hb c hc))]
      rfl
    rw [clean_price_eq s _ hraw]
    dsimp only
    rw [if_neg (by rw [hcomma, hdot']; simp),
      if_pos (by rw [hcomma, hdot']; rfl),
      hfa, hmap, parseFloat_pair a b ha hb hane]
  · intro s a b c hraw ha hb hc
    have hnodot : ∀ x ∈ a ++ ',' :: (b ++ ',' :: c), (x == '.') = false := by
      intro x hx
      rcases List.mem_append.mp hx with hxa | hxr
      · exact digit_beq_dot (ha x hxa)
      · rcases List.mem_cons.mp hxr with hxc | hxr2
        · rw [hxc]; rfl
        · rcases List.mem_append.mp hxr2 with hxb | hxr3
          · exact digit_beq_dot (hb x hxb)
          · rcases List.mem_cons.mp hxr3 with hxc2 | hxcc
            · rw [hxc2]; rfl
            · exact digit_beq_dot (hc x hxcc)
    have hcomma : hasChar ',' (a ++ ',' :: (b ++ ',' :: c)) = true := by
      rw [hasChar_append, hasChar_cons_self]; simp
    have hdot' : hasChar '.' (a ++ ',' :: (b ++ ',' :: c)) = false :=
      hasChar_dot_false _ hnodot
    have hfa : (a ++ ',' :: (b ++ ',' :: c)).filter (fun x => x != '.') =
        a ++ ',' :: (b ++ ',' :: c) :=
      List.filter_eq_self.mpr fun x hx => by simp [bne, hnodot x hx]
    have hmap : (a ++ ',' :: (b ++ ',' :: c)).map (fun x => if x == ',' then '.' else x) =
        a ++ '.' :: (b ++ '.' :: c) := by
      rw [List.map_append, List.map_cons, List.map_append, List.map_cons,
        map_comma_to_dot_id a (fun x hx => digit_beq_comma (ha x hx)),
        map_comma_to_dot_id b (fun x hx => digit_beq_comma (hb x hx)),
        map_comma_to_dot_id c (fun x hx => digit_beq_comma (hc x hx))]
      rfl
    rw [clean_price_eq s _ hraw]
    dsimp only
    rw [if_neg (by rw [hcomma, hdot']; simp),
      if_pos (by rw [hcomma, hdot']; rfl),
      hfa, hmap,
      parseFloat_two_dots a b c (fun x hx => digit_beq_dot (ha x hx))
        (fun x hx => digit_beq_dot (hb x hx)) (fun x hx => digit_beq_dot (hc x hx))]

/-- Claim C2, witness: `"124,99"` (single comma) normalizes to 124.99,
and `"9,9,9"` (two commas) yields no value. -/
theorem C2_comma_always_decimal_witness :
    (clean_price "124,99").2 = some (mkRat 12499 100)
    ∧ (clean_price "9,9,9").2 = none := by
  constructor
  · have h := C2_comma_always_decimal.1 "124,99" ['1', '2', '4'] ['9', '9']
      (by decide) (by decide) (by decide)
    rw [h]; decide
  · exact C2_comma_always_decimal.2 "9,9,9" ['9'] ['9'] ['9']
      (by decide) (by decide) (by decide) (by decide)

/-- Claim C2, counterexample to the claim as stated: on `"1,234,567"`
the comma appears more than once, so the claim demands the commas be
stripped as thousands separators (value 1234567); the code replaces
every comma by a dot, `float("1.234.567")` raises, and the value is
`None`. -/
theorem C2_counterexample :
    (clean_price "1,234,567").2 = none
    ∧ (none : Option ℚ) ≠ some (mkRat 1234567 1) := by decide

/-- Claim C3: the row carries the raw price text verbatim (true), but it
carries no normalized price value at all: the `"price_value"` dict entry
is commented out in the source (line 263), even though `clean_price`
successfully computed the value (and `write_csv` still declares a
`price_value` column).  The claim's second half therefore fails on the
code. -/
theorem C3_price_value_dropped :
    parse_products_from_html "k" c3Soup "u" simpleSite = [c3Record]
    ∧ dictGet "price_text" c3Record = some "124,99"
    ∧ dictGet "price_value" c3Record = none
    ∧ (clean_price "124,99").2 = some (mkRat 12499 100) := by decide

/-- Claim C4, counterexample to the claim as stated: a page whose single
item has a matched price but an unmatched name selector still produces
one row (with an empty name); the extractor only skips items whose
price selector matches nothing. -/
theorem C4_counterexample :
    (namelessItem.selOne simpleSite.name_selector).isSome = false
    ∧ parse_products_from_html "k" c4Soup "u" simpleSite = [c4Record]
    ∧ parse_products_from_html "k" c4Soup "u" simpleSite ≠ [] := by decide

/-- Claim C4, amended: an item whose name selector matches no element is
not skipped; as long as its price selector matches, it still contributes
its row to the extraction result. -/
theorem C4_nameless_item_kept (site_key page_url : String) (site : SiteConfig)
    (soup : Soup) (item : ItemElem)
    (hmem : item ∈ soup.select site.item_selector)
    (hname : item.selOne site.name_selector = none)
    (hprice : (item.selOne site.price_selector).isSome = true) :
    ∃ r, itemRecord site_key page_url site item = some r
      ∧ r ∈ parse_products_from_html site_key soup page_url site := by
  obtain ⟨pe, hpe⟩ := Option.isSome_iff_exists.mp hprice
  have hrec : (itemRecord site_key page_url site item).isSome = true := by
    simp only [itemRecord, hpe]
    rfl
  obtain ⟨r, hr⟩ := Option.isSome_iff_exists.mp hrec
  refine ⟨r, hr, ?_⟩
  unfold parse_products_from_html
  exact List.mem_filterMap.mpr ⟨item, hmem, hr⟩

/-- Claim C4, witness: the amended claim at the concrete C4 page. -/
theorem C4_nameless_item_kept_witness :
    ∃ r, itemRecord "k" "u" simpleSite namelessItem = some r
      ∧ r ∈ parse_products_from_html "k" c4Soup "u" simpleSite :=
  C4_nameless_item_kept "k" "u" simpleSite c4Soup namelessItem
    (List.mem_cons_self namelessItem []) rfl rfl

/-- Claim C5: for a parameter-based site (no truthy `next_page_selector`)
and one start URL, the pagination (a) never performs more page fetches
than the effective page-count limit `args.max_pages or site.max_pages
or 1`, and (b) is exactly the visit of consecutive pages from page 1,
stopping at the first page whose fetch fails or yields zero extracted
rows, fetching each visited page once and concatenating its rows
(`stopLen` is that stopping rule stated on its own). -/
theorem C5_param_pagination (A : Args) (site : SiteConfig)
    (fetch render : String → Option Html) (ujoin : String → String → String)
    (site_key base_url : String)
    (hnp : optTruthy site.next_page_selector = none) :
    (scrape_start_url A site fetch render ujoin site_key base_url).2.length
        ≤ (effMaxPages A site).toNat
    ∧ scrape_start_url A site fetch render ujoin site_key base_url =
        (((List.range' 1 (stopLen A site fetch render site_key base_url
              (effMaxPages A site).toNat 1)).map
            (fun i => (pageRecords A site fetch render site_key base_url i).getD [])).flatten,
         (List.range' 1 (stopLen A site fetch render site_key base_url
              (effMaxPages A site).toNat 1)).map (pageURL base_url)) := by
  have h := pageLoop_no_next A site fetch render ujoin site_key base_url hnp
    (effMaxPages A site).toNat 1
  constructor
  · rw [scrape_start_url, h]
    simp only [List.length_map, List.length_range']
    exact stopLen_le A site fetch render site_key base_url (effMaxPages A site).toNat 1
  · rw [scrape_start_url, h]

/-- Claim C5, witness: the two-page scenario (page 1 yields 3 rows,
page 2 yields 0) under `--max-pages 5` produces exactly 3 rows and
exactly 2 fetch calls. -/
theorem C5_param_pagination_witness :
    (scrape_start_url c5Args simpleSite c5Fetch noRender joinNop "k" "http://s").1.length = 3
    ∧ (scrape_start_url c5Args simpleSite c5Fetch noRender joinNop "k" "http://s").2 =
      ["http://s?page=1", "http://s?page=2"] := by
  have h := C5_param_pagination c5Args simpleSite c5Fetch noRender joinNop "k" "http://s" rfl
  rw [h.2]
  exact ⟨by decide, by decide⟩

/-- Claim C6: the default-mode render-fallback decision over the static
markup is `true` whenever the item selector matches more than zero
elements and the price selector matches zero, and `false` whenever both
counts are positive.  (For a `SiteConfig` that reaches the scraper the
price selector is non-empty; an empty one is falsy in Python and makes
the probe hard-code a zero price count.) -/
theorem C6_render_decision (site : SiteConfig) (soup : Soup)
    (hps : site.price_selector ≠ "") :
    (0 < (soup.select site.item_selector).length →
      (soup.select site.price_selector).length = 0 →
      needJsStatic site soup = true)
    ∧ (0 < (soup.select site.item_selector).length →
      0 < (soup.select site.price_selector).length →
      needJsStatic site soup = false) := by
  simp only [needJsStatic, if_neg hps]
  constructor
  · intro h1 h2
    simp [h1, h2]
  · intro h1 h2
    have hne : (soup.select site.price_selector).length ≠ 0 := Nat.pos_iff_ne_zero.mp h2
    simp [hne]

/-- Claim C6, witness: a page with items and no price matches signals a
render; a page with items and price matches does not. -/
theorem C6_render_decision_witness :
    needJsStatic simpleSite jsOnlySoup = true
    ∧ needJsStatic simpleSite c5Soup1 = false :=
  ⟨(C6_render_decision simpleSite jsOnlySoup (by decide)).1 (by decide) (by decide),
   (C6_render_decision simpleSite c5Soup1 (by decide)).2 (by decide) (by decide)⟩

/-- Claim C7: the normalizer is total and never raises.  Empty (or
Python-falsy `None`) input yields `(None, None)`; input with a currency
token but no digits yields `(currency, None)`; and input whose numeric
run canonicalizes to an unparsable string (`"$ 1,2,3"`) yields
`(currency, None)` instead of raising. -/
theorem C7_normalizer_total :
    clean_price "" = (none, none)
    ∧ (∀ (s c : String),
        priceSymSearch s = some c →
        (∀ ch ∈ s.data, ch.isDigit = false) →
        clean_price s = (some c, none))
    ∧ clean_price "$ 1,2,3" = (some "$", none) := by
  refine ⟨rfl, ?_, by decide⟩
  intro s c hc hnd
  have hs : s ≠ "" := by
    intro he
    rw [he] at hc
    have h0 : priceSymSearch "" = none := rfl
    rw [h0] at hc
    exact Option.noConfusion hc
  rw [clean_price, if_neg hs, numFrom_nbsp_none s hnd, hc]

/-- Claim C7, witness: a currency token with no digits. -/
theorem C7_normalizer_total_witness :
    clean_price "€uro" = (some "€", none) :=
  C7_normalizer_total.2.1 "€uro" "€" (by decide) (by decide)

/-- Claim C8: an item whose price selector matches no element is
excluded from the extraction result, and nothing else is dropped: the
extractor returns exactly one row per item whose price selector
matches. -/
theorem C8_priceless_items_excluded (site_key page_url : String) (site : SiteConfig)
    (soup : Soup) :
    (parse_products_from_html site_key soup page_url site).length =
      ((soup.select site.item_selector).filter
        (fun it => (it.selOne site.price_selector).isSome)).length := by
  unfold parse_products_from_html
  generalize soup.select site.item_selector = l
  induction l with
  | nil => rfl
  | cons it its ih =>
    rw [List.filterMap_cons, List.filter_cons]
    have hrec := itemRecord_isSome_eq site_key page_url site it
    cases hr : itemRecord site_key page_url site it with
    | none =>
      rw [hr] at hrec
      rw [← hrec]
      simp only [Option.isSome_none, Bool.false_eq_true, if_false]
      exact ih
    | some r =>
      rw [hr] at hrec
      rw [← hrec]
      simp only [Option.isSome_some, if_true, List.length_cons]
      rw [ih]

/-- Claim C9: when the dynamic-render capability is absent (the renderer
returns nothing, as `fetch_with_playwright` does when Playwright cannot
be imported or the rendering is falsy), a page for which a render was
signalled is still processed from its static markup: the rows of that
page are exactly the extractor's rows over the static soup, and the loop
carries on (the model is a total function). -/
theorem C9_absent_renderer_keeps_static (A : Args) (site : SiteConfig)
    (fetch render : String → Option Html) (site_key base_url : String)
    (idx : Nat) (h0 : Html)
    (hfetch : fetch (pageURL base_url idx) = some h0)
    (hsig : needJsFor A site h0 = true)
    (hrender : render (pageURL base_url idx) = none) :
    pageRecords A site fetch render site_key base_url idx =
      some (parse_products_from_html site_key h0.soup (pageURL base_url idx) site) := by
  unfold pageRecords staticOrRendered
  rw [hfetch]
  simp [hsig, hrender]

/-- Claim C9, witness: a page whose items lack static prices signals a
render; with the always-failing renderer its rows are still the static
extraction. -/
theorem C9_absent_renderer_keeps_static_witness :
    pageRecords c5Args simpleSite jsOnlyFetch noRender "k" "http://s" 1 =
      some (parse_products_from_html "k" jsOnlyHtml.soup (pageURL "http://s" 1) simpleSite) :=
  C9_absent_renderer_keeps_static c5Args simpleSite jsOnlyFetch noRender "k" "http://s" 1
    jsOnlyHtml rfl (by decide) rfl

/-- Claim C10: the currency the normalizer reports is exactly the first
case-insensitive match of `$`, `€`, `£`, `ARS`, `AR$` or `USD` anywhere
in the text, independent of any digits: `"harsh"` (no price at all)
reports the currency `"ars"`, and `"It CosTs 5 UsD"` reports `"UsD"`
with its original casing. -/
theorem C10_currency_case_insensitive :
    (∀ s : String, (clean_price s).1 = priceSymSearch s)
    ∧ clean_price "harsh" = (some "ars", none)
    ∧ clean_price "It CosTs 5 UsD" = (some "UsD", some 5) := by
  refine ⟨?_, by decide, by decide⟩
  intro s
  by_cases hs : s = ""
  · subst hs; rfl
  · rw [clean_price, if_neg hs]
    cases h : numFrom (nbspToSpace s.data) <;> simp [h]
